import Mathlib

/-!
A verification development for the sumatra record-store layer
(`sumatra/recordstore/__init__.py` and `sumatra/recordstore/http_store.py`).

The Python code is shallowly embedded: HTTP exchanges are modelled by
passing the relevant response data (status codes, decoded JSON bodies,
server-side project/record state) explicitly; Python exceptions are
modelled with an `Except PyError` result; JSON values are modelled by the
inductive type `J`, with dictionary access raising (returning `none`)
on a missing key exactly as Python's `d[k]` raises `KeyError`.
-/

/-- Python exceptions that the embedded code can raise.
`keyError` stands for `KeyError` (and kindred lookup failures),
`accessError` for `sumatra.recordstore.base.RecordStoreAccessError`,
`typeError` for `TypeError`. -/
inductive PyError where
  | keyError : String → PyError
  | accessError : String → PyError
  | typeError : PyError
deriving DecidableEq, Repr

/-- The classes relevant to the `super(...)` call in `HttpCoRRStore.sync`.
`HttpRecordStore` and `HttpCoRRStore` each inherit directly from
`RecordStore` (see the `class` headers in http_store.py). -/
inductive PyClass where
  | recordStore
  | httpRecordStore
  | httpCoRRStore
deriving DecidableEq, Repr, BEq

/-- Method resolution order of each class (the class itself followed by its
bases), as in the source: both HTTP stores subclass `RecordStore` directly. -/
def pyMro : PyClass → List PyClass
  | .recordStore => [.recordStore]
  | .httpRecordStore => [.httpRecordStore, .recordStore]
  | .httpCoRRStore => [.httpCoRRStore, .recordStore]

/-- `issubclass(c, d)` in Python: `d` occurs in `c`'s method resolution order.
`super(d, self)` raises `TypeError` unless `isSubclassOf (type self) d`. -/
def isSubclassOf (c d : PyClass) : Bool := (pyMro c).contains d

/-- `pat` occurs at the head of `s` (character lists). -/
def subSeqAt : List Char → List Char → Bool
  | [], _ => true
  | _ :: _, [] => false
  | p :: ps, c :: cs => p == c && subSeqAt ps cs

/-- `pat` occurs somewhere in `s` (character lists). -/
def hasSubSeq (pat : List Char) : List Char → Bool
  | [] => subSeqAt pat []
  | c :: rest => subSeqAt pat (c :: rest) || hasSubSeq pat rest

/-- Python's substring test `pat in s`. -/
def strContains (s pat : String) : Bool := hasSubSeq pat.data s.data

/-- Python's `s[-1] == "/"` test (on the empty string the Python code would
raise `IndexError`; the constructors are only ever applied to nonempty URLs). -/
def lastCharIsSlash (s : String) : Bool :=
  match s.data.getLast? with
  | some c => c == '/'
  | none => false

/-- JSON values, as produced by `json.loads` on a server response. -/
inductive J where
  | str : String → J
  | num : Int → J
  | arr : List J → J
  | obj : List (String × J) → J

/-- Dictionary lookup on an association list of JSON object entries. -/
def lookupKey : String → List (String × J) → Option J
  | _, [] => none
  | k, (k₂, v) :: rest => if k == k₂ then some v else lookupKey k rest

/-- Python's `j[k]`: succeeds only on a dictionary holding the key
(`KeyError`/`TypeError` otherwise, modelled as `none`). -/
def jGet (j : J) (k : String) : Option J :=
  match j with
  | .obj kvs => lookupKey k kvs
  | _ => none

/-- Python's `j.get(k, d)`: the value at `k`, or the default `d`.
(The Python code only applies `.get` to dictionaries.) -/
def jGetD (j : J) (k : String) (d : J) : J :=
  match jGet j k with
  | some v => v
  | none => d

/-- Python's `str.format` of a JSON scalar: strings format as themselves,
numbers via decimal notation. -/
def pyStr : J → String
  | .str s => s
  | .num n => toString n
  | .arr _ => "<list>"
  | .obj _ => "<dict>"

/-!
## Server-side state model

The remote services behind both backends are modelled as a list of
projects, each holding labelled records (record content is abstracted
to a `Nat` identifier: `save`/`get` move content around unchanged, so
only equality of content matters to the claims).  The state-transition
semantics of each endpoint follows the documented protocol table of the
module docstring (PUT on a project URL creates it; PUT on a record URL
writes the record under that label, overwriting an existing one).
-/

/-- One project on the server: a name and its records (label, content). -/
structure ProjState where
  name : String
  recs : List (String × Nat)
deriving DecidableEq, Repr

/-- Server state: the projects it holds. -/
abbrev StoreSt := List ProjState

/-- The project named `p`, if present. -/
def getProj (st : StoreSt) (p : String) : Option ProjState :=
  st.find? (fun pr => pr.name == p)

/-- Whether the server has a project named `p`. -/
def hasProjectSt (st : StoreSt) (p : String) : Bool :=
  (getProj st p).isSome

/-- Effect of `create_project p` on the server: appends an empty project
(the backends only call it after checking `has_project` is false). -/
def createProjectSt (st : StoreSt) (p : String) : StoreSt :=
  st ++ [⟨p, []⟩]

/-- Write `content` under `label` in the record list, overwriting. -/
def upsertRec (recs : List (String × Nat)) (label : String) (content : Nat) :
    List (String × Nat) :=
  match recs with
  | [] => [(label, content)]
  | (l, c) :: rest =>
    if l == label then (label, content) :: rest
    else (l, c) :: upsertRec rest label content

/-- Effect on the server of a successful record PUT `/{p}/{label}/`:
writes the record into project `p` (overwrite semantics). -/
def saveRecSt (st : StoreSt) (p label : String) (content : Nat) : StoreSt :=
  st.map (fun pr => if pr.name == p then ⟨pr.name, upsertRec pr.recs label content⟩ else pr)

/-- The labels of project `p`'s records (empty if the project is absent). -/
def labelsSt (st : StoreSt) (p : String) : List String :=
  match getProj st p with
  | some pr => pr.recs.map Prod.fst
  | none => []

/-- The content stored under `label` in project `p`, if any. -/
def getRecSt (st : StoreSt) (p label : String) : Option Nat :=
  match getProj st p with
  | some pr => (pr.recs.find? (fun r => r.fst == label)).map Prod.snd
  | none => none

/-!
## `process_url` and the `HttpRecordStore` constructor
-/

/-- `urlunparse(urlparse(url))` with the userinfo removed from the netloc:
the effect of the `'@' in url` branch of `process_url` on the stored URL. -/
def stripUserinfo (url : String) : String :=
  match url.splitOn "://" with
  | [scheme, rest] =>
    let netloc := (rest.splitOn "/").headD ""
    let path := rest.drop netloc.length
    let host := (netloc.splitOn "@").getLastD netloc
    scheme ++ "://" ++ host ++ path
  | _ => url

/-- `process_url` (http_store.py): strips an embedded `user:pass@` from the
URL when present; otherwise the URL is returned unchanged. -/
def processUrl (url : String) : String :=
  if strContains url "@" then stripUserinfo url else url

/-- The `server_url` stored by `HttpRecordStore.__init__`: the processed URL
with a trailing slash appended when missing. -/
def httpStoreServerUrl (serverUrl : String) : String :=
  let u := processUrl serverUrl
  if lastCharIsSlash u then u else u ++ "/"

/-- `HttpRecordStore.accepts_uri`: `uri[:4] == "http"`. -/
def httpAcceptsUri (uri : String) : Bool :=
  uri.data.take 4 == "http".data

/-!
## `HttpRecordStore` operations
-/

/-- A request issued by the client. -/
structure HttpRequest where
  method : String
  url : String
deriving DecidableEq, Repr

/-- The URL of the record PUT in `HttpRecordStore.save`:
`"%s%s/%s/" % (self.server_url, project_name, record.label)`. -/
def genSaveUrl (serverUrl project label : String) : String :=
  serverUrl ++ project ++ "/" ++ label ++ "/"

/-- `HttpRecordStore.save`: ensure the project exists (`has_project` /
`create_project`), then PUT the record; any response status other than
200 or 201 raises `RecordStoreAccessError`.  Returns the new server
state, the record request issued, and the outcome for response `status`. -/
def httpRecordStoreSave (st : StoreSt) (serverUrl project label : String)
    (content : Nat) (status : Nat) :
    StoreSt × HttpRequest × Except PyError Unit :=
  let st₁ := if hasProjectSt st project then st else createProjectSt st project
  let req : HttpRequest := ⟨"PUT", genSaveUrl serverUrl project label⟩
  if status = 200 ∨ status = 201 then
    (saveRecSt st₁ project label content, req, .ok ())
  else
    (st₁, req, .error (.accessError (toString status)))

/-- `HttpRecordStore._get_record`, after the GET: status 200 decodes the
body, 404 raises `KeyError` ("no record was found"), anything else raises
`RecordStoreAccessError`. -/
def genGetRecordOutcome (status : Nat) (content : String) : Except PyError String :=
  if status ≠ 200 then
    if status = 404 then .error (.keyError "No record was found")
    else .error (.accessError (toString status ++ "\n" ++ content))
  else .ok content

/-- Is the outcome the distinct "not found" error (`KeyError`)? -/
def isNotFound {α : Type} : Except PyError α → Bool
  | .error (.keyError _) => true
  | _ => false

/-- Is the outcome a `RecordStoreAccessError`? -/
def isAccessError {α : Type} : Except PyError α → Bool
  | .error (.accessError _) => true
  | _ => false

/-- A warning emitted via `warnings.warn`, with the operation's value. -/
structure WarnResult (α : Type) where
  warning : String
  value : α
deriving DecidableEq, Repr

/-- `HttpRecordStore.clear`: warns, touches nothing. -/
def httpClear (st : StoreSt) : StoreSt × WarnResult Unit :=
  (st, ⟨"Cannot clear a remote record store directly. Contact the record store administrator", ()⟩)

/-- `HttpRecordStore.backup`: warns, touches nothing. -/
def httpBackup (st : StoreSt) : StoreSt × WarnResult Unit :=
  (st, ⟨"Cannot backup a remote record store directly. Contact the record store administrator", ()⟩)

/-- `HttpRecordStore.remove`: warns, touches nothing. -/
def httpRemove (st : StoreSt) : StoreSt × WarnResult Unit :=
  (st, ⟨"Cannot remove a remote record store directly. Contact the record store administrator", ()⟩)

/-- Modelled from the spec: `RecordStore.sync` of `recordstore/base.py` is
not among the provided sources, so the generic merge algorithm is taken
from the spec's words: "enumerate all record labels in the source; for
each label, fetch the full record from source and save it to target
(overwrite semantics)".  `target` is the store `sync` was invoked on,
`source` the `other` argument. -/
def baseSync (target source : StoreSt) (p : String) : StoreSt :=
  (labelsSt source p).foldl
    (fun tgt label =>
      match getRecSt source p label with
      | some c => saveRecSt tgt p label c
      | none => tgt)
    target

/-- `HttpRecordStore.sync`: ensure the project exists on this (target)
store, then delegate to the base-class merge. -/
def httpRecordStoreSync (self other : StoreSt) (p : String) : StoreSt :=
  let self₁ := if hasProjectSt self p then self else createProjectSt self p
  baseSync self₁ other p

/-!
## The backend registry (`recordstore/__init__.py`)
-/

/-- A registered record-store class: its name and `accepts_uri` predicate. -/
structure StoreClass where
  clsName : String
  accepts : String → Bool

/-- An instantiated store: which class was constructed, with which URI. -/
structure StoreInst where
  cls : String
  uri : String
deriving DecidableEq, Repr

/-- `get_record_store` (recordstore/__init__.py): walk the registered
classes in order, instantiate the first whose `accepts_uri` holds with the
given URI; if none accepts, instantiate the default store with the URI. -/
def getRecordStore (classes : List StoreClass) (dflt : StoreClass) (uri : String) :
    StoreInst :=
  match classes.find? (fun c => c.accepts uri) with
  | some c => ⟨c.clsName, uri⟩
  | none => ⟨dflt.clsName, uri⟩

/-!
## `HttpCoRRStore` operations

Responses of the CoRR service arrive as `{code, content:{...}}`; the
definitions below model the client-side processing after a successful
transport exchange (status 200, envelope code 200), which is where all
of the claims' logic lives; the non-200 guard clauses raise
`RecordStoreAccessError` uniformly in the source.
-/

/-- One entry of the `GET /projects` listing (the fields the client reads). -/
structure ProjEntry where
  id : String
  name : String
deriving DecidableEq, Repr

/-- The `for p in ...: if p['name'] == project_name: project = p; break`
scan shared by `has_project`, `get`, `list`, `save`, `project_info`. -/
def corrFindProject (projects : List ProjEntry) (name : String) : Option ProjEntry :=
  projects.find? (fun p => p.name == name)

/-- `HttpCoRRStore.list_projects`: `[entry['id'] for entry in ...]`. -/
def corrListProjects (projects : List ProjEntry) : List String :=
  projects.map (fun p => p.id)

/-- `HttpCoRRStore.has_project`: true iff the name scan found a project. -/
def corrHasProject (projects : List ProjEntry) (name : String) : Bool :=
  (corrFindProject projects name).isSome

/-- The seven values read off `record['head']` by both decode branches of
`HttpCoRRStore._get_record` (a missing key raises `KeyError`: `none`). -/
structure CorrHeadFields where
  label : J
  tags : J
  system : J
  inputs : J
  outputs : J
  dependencies : J
  execution : J

/-- The first eight values read off `record['body']['body']['content']`. -/
structure CorrBodyFieldsA where
  timestamp : J
  reason : J
  duration : J
  executable : J
  repository : J
  mainFile : J
  version : J
  parameters : J

/-- The remaining seven values read off `record['body']['body']['content']`. -/
structure CorrBodyFieldsB where
  scriptArguments : J
  datastore : J
  inputDatastore : J
  outcome : J
  stdoutStderr : J
  diff : J
  user : J

/-- Read the head fields, in the source's line order. -/
def corrExtractHead (head : J) : Option CorrHeadFields :=
  (jGet head "label").bind fun label =>
  (jGet head "tags").bind fun tags =>
  (jGet head "system").bind fun system =>
  (jGet head "inputs").bind fun inputs =>
  (jGet head "outputs").bind fun outputs =>
  (jGet head "dependencies").bind fun dependencies =>
  (jGet head "execution").bind fun execution =>
  some ⟨label, tags, system, inputs, outputs, dependencies, execution⟩

/-- Read the first eight body fields, in the source's line order. -/
def corrExtractBodyA (c : J) : Option CorrBodyFieldsA :=
  (jGet c "timestamp").bind fun timestamp =>
  (jGet c "reason").bind fun reason =>
  (jGet c "duration").bind fun duration =>
  (jGet c "executable").bind fun executable =>
  (jGet c "repository").bind fun repository =>
  (jGet c "main_file").bind fun mainFile =>
  (jGet c "version").bind fun version =>
  (jGet c "parameters").bind fun parameters =>
  some ⟨timestamp, reason, duration, executable, repository, mainFile, version,
        parameters⟩

/-- Read the remaining seven body fields, in the source's line order. -/
def corrExtractBodyB (c : J) : Option CorrBodyFieldsB :=
  (jGet c "script_arguments").bind fun scriptArguments =>
  (jGet c "datastore").bind fun datastore =>
  (jGet c "input_datastore").bind fun inputDatastore =>
  (jGet c "outcome").bind fun outcome =>
  (jGet c "stdout_stderr").bind fun stdoutStderr =>
  (jGet c "diff").bind fun diff =>
  (jGet c "user").bind fun user =>
  some ⟨scriptArguments, datastore, inputDatastore, outcome, stdoutStderr,
        diff, user⟩

/-- The `content` dictionary assembled by `_get_record`, in the source's
insertion order (`platforms` wraps `head['system']` in a one-element list;
the remaining head fields are renamed `inputs`→`input_data` etc.). -/
def corrAssemble (h : CorrHeadFields) (a : CorrBodyFieldsA) (b : CorrBodyFieldsB) :
    List (String × J) :=
  [("label", h.label), ("tags", h.tags), ("platforms", J.arr [h.system]),
   ("input_data", h.inputs), ("output_data", h.outputs),
   ("dependencies", h.dependencies), ("launch_mode", h.execution),
   ("timestamp", a.timestamp), ("reason", a.reason), ("duration", a.duration),
   ("executable", a.executable), ("repository", a.repository),
   ("main_file", a.mainFile), ("version", a.version),
   ("parameters", a.parameters), ("script_arguments", b.scriptArguments),
   ("datastore", b.datastore), ("input_datastore", b.inputDatastore),
   ("outcome", b.outcome), ("stdout_stderr", b.stdoutStderr),
   ("diff", b.diff), ("user", b.user)]

/-- The `record['body']['body']['content']` reads of `_get_record`, and the
body-field extraction that follows the head-field reads. -/
def corrExtractWithHead (r : J) (hf : CorrHeadFields) :
    Option (List (String × J)) :=
  (jGet r "body").bind fun body =>
  (jGet body "body").bind fun body₂ =>
  (jGet body₂ "content").bind fun c =>
  (corrExtractBodyA c).bind fun a =>
  (corrExtractBodyB c).bind fun b =>
  some (corrAssemble hf a b)

/-- The field extraction of the `len(records) == 1` branch of
`HttpCoRRStore._get_record`: head fields from `r['head']`, execution
metadata from `r['body']['body']['content']`; a missing key raises
(`none`).  The canonical record is the assembled `content` dictionary
(which the source then passes to `serialization.decode_record`). -/
def corrExtract1 (r : J) : Option (List (String × J)) :=
  (jGet r "head").bind fun head =>
  (corrExtractHead head).bind fun hf =>
  corrExtractWithHead r hf

/-- The per-record field extraction of the `len(records) > 1` branch of
`HttpCoRRStore._get_record` (textually the same accesses as the
single-record branch, applied to each `record` of the loop). -/
def corrExtractN (r : J) : Option (List (String × J)) :=
  (jGet r "head").bind fun head =>
  (corrExtractHead head).bind fun hf =>
  corrExtractWithHead r hf

/-- The single-record envelope shape the spec attributes to record detail:
`{head: ..., body: {content: ...}}`. -/
def mkSingleShape (head content : J) : J :=
  J.obj [("head", head), ("body", J.obj [("content", content)])]

/-- The list-element envelope shape: `{head: ..., body: {body: {content: ...}}}`. -/
def mkListShape (head content : J) : J :=
  J.obj [("head", head), ("body", J.obj [("body", J.obj [("content", content)])])]

/-- `"%s" % label` for the optional label argument (`None` formats as "None"). -/
def labelRepr : Option String → String
  | some l => l
  | none => "None"

/-- The record-selection loop of `HttpCoRRStore._get_record`: with no label,
every record of the listing; with a label, the first record whose
`head.label` equals it (`try`/`except: pass` skips malformed entries). -/
def corrFilterRecords (records : List J) (label : Option String) : List J :=
  match label with
  | none => records
  | some l =>
    match records.find? (fun r =>
      match jGet r "head" with
      | some h =>
        match jGet h "label" with
        | some (J.str s) => s == l
        | _ => false
      | none => false) with
    | some r => [r]
    | none => []

/-- `HttpCoRRStore._get_record` after the project-records GET succeeded
with listing `records`: select by `label`, then decode.  Exactly one
match decodes via the single branch; several matches decode all but
return only `contents[0]`; no match raises `RecordStoreAccessError`. -/
def corrGetRecordFrom (records : List J) (label : Option String) :
    Except PyError (List (String × J)) :=
  match corrFilterRecords records label with
  | [] => .error (.accessError ("No record with these label " ++ labelRepr label ++ "\n"))
  | [r] =>
    match corrExtract1 r with
    | some d => .ok d
    | none => .error (.keyError "record envelope")
  | rs =>
    match rs.mapM corrExtractN with
    | some (d :: _) => .ok d
    | some [] => .error (.keyError "record envelope")
    | none => .error (.keyError "record envelope")

/-- `HttpCoRRStore.list`: resolve the project id by the name scan, then
`_get_record(project['id'], None)`; an unknown project name raises
`RecordStoreAccessError`.  (`tags` is accepted and ignored by the source.) -/
def corrList (projects : List ProjEntry) (recordsOf : String → List J)
    (name : String) : Except PyError (List (String × J)) :=
  match corrFindProject projects name with
  | some p => corrGetRecordFrom (recordsOf p.id) none
  | none => .error (.accessError ("No project named " ++ name ++ "\n"))

/-- `HttpCoRRStore.get`: the name scan followed by `_get_record(id, label)`. -/
def corrGet (projects : List ProjEntry) (recordsOf : String → List J)
    (name label : String) : Except PyError (List (String × J)) :=
  match corrFindProject projects name with
  | some p => corrGetRecordFrom (recordsOf p.id) (some label)
  | none => .error (.accessError ("No project named " ++ name ++ "\n"))

/-- `HttpCoRRStore.labels`: `list`, then `try: return [list_recs.label]`;
when the attribute access fails the `except` arm evaluates a list
comprehension without returning it, so the method yields `None`
(modelled as the inner `none`). -/
def corrLabels (projects : List ProjEntry) (recordsOf : String → List J)
    (name : String) : Except PyError (Option (List J)) :=
  match corrList projects recordsOf name with
  | .ok d =>
    .ok (match lookupKey "label" d with
         | some v => some [v]
         | none => none)
  | .error e => .error e

/-- `HttpCoRRStore.delete`: warns, performs no request, changes nothing. -/
def corrDelete (st : StoreSt) (_project _label : String) : StoreSt × WarnResult Unit :=
  (st, ⟨"Deleting is not allowed by CoRR from the Command line tool for now.", ()⟩)

/-- `HttpCoRRStore.delete_by_tag`: warns and returns the count 0. -/
def corrDeleteByTag (st : StoreSt) (_project _tag : String) : StoreSt × WarnResult Nat :=
  (st, ⟨"Deleting a record store is not allowed by CoRR from the Command line tool for now.", 0⟩)

/-- `HttpCoRRStore.clear`: warns, changes nothing. -/
def corrClear (st : StoreSt) : StoreSt × WarnResult Unit :=
  (st, ⟨"Clearing a record store is not allowed by CoRR from the Command line tool for now.", ()⟩)

/-- `HttpCoRRStore.backup`: warns, changes nothing. -/
def corrBackup (st : StoreSt) : StoreSt × WarnResult Unit :=
  (st, ⟨"Cannot backup a CoRR record store directly. Contact the instance administrator", ()⟩)

/-- `HttpCoRRStore.remove`: warns, changes nothing. -/
def corrRemove (st : StoreSt) : StoreSt × WarnResult Unit :=
  (st, ⟨"Cannot remove a CoRR record store directly. Contact the instance administrator", ()⟩)

/-- `HttpCoRRStore.__init__`: a `server_url` containing `"http"` is stored
as is; otherwise it is a config-file path, opened and JSON-decoded (the
file system is modelled as a map from paths to parsed JSON; a missing
file makes `open` raise).  The private endpoint URL is
`"{host}:{port}{path}/private/{key}/{token}/"` built from
`default.api.{host,port,path,key}` and `default.app`, with defaults
`port=80` and `""` for the string fields. -/
def corrServerUrlFromConfig (config : J) : String :=
  let scope := jGetD config "default" (J.obj [])
  let api := jGetD scope "api" (J.obj [])
  let host := pyStr (jGetD api "host" (J.str ""))
  let port := pyStr (jGetD api "port" (J.num 80))
  let key := pyStr (jGetD api "key" (J.str ""))
  let path := pyStr (jGetD api "path" (J.str ""))
  let token := pyStr (jGetD scope "app" (J.str ""))
  host ++ ":" ++ port ++ path ++ "/private/" ++ key ++ "/" ++ token ++ "/"

/-- The `server_url` established by `HttpCoRRStore.__init__` (see
`corrServerUrlFromConfig`). -/
def corrInitServerUrl (fs : String → Option J) (serverUrl : String) :
    Except PyError String :=
  if strContains serverUrl "http" then .ok serverUrl
  else
    match fs serverUrl with
    | some config => .ok (corrServerUrlFromConfig config)
    | none => .error (.accessError "IOError: cannot open config file")

/-- `HttpCoRRStore.accepts_uri`: open the URI as a local file and test
whether its content contains `"https://corr-root.org"`; any failure is
swallowed by the bare `except` and yields `False`.  The readable files
are modelled as a map from paths to raw text. -/
def corrAcceptsUri (fs : String → Option String) (uri : String) : Bool :=
  match fs uri with
  | some content =>
    if strContains content "https://corr-root.org" then true else false
  | none => false

/-- `HttpCoRRStore.sync`: after ensuring the project exists, the source
executes `super(HttpRecordStore, self).sync(...)`; since `HttpCoRRStore`
is not a subclass of `HttpRecordStore`, Python's `super` raises
`TypeError` there, before any record is copied. -/
def httpCoRRStoreSync (self other : StoreSt) (p : String) : Except PyError StoreSt :=
  let self₁ := if hasProjectSt self p then self else createProjectSt self p
  if isSubclassOf .httpCoRRStore .httpRecordStore then
    .ok (baseSync self₁ other p)
  else
    .error .typeError

/-!
## Concrete sample data used by the witnesses and counterexamples
-/

/-- A complete `head` sub-object for the record labelled `run001`. -/
def sampleHeadJ : J :=
  J.obj [("label", .str "run001"), ("tags", .arr []), ("system", .obj []),
         ("inputs", .arr []), ("outputs", .arr []),
         ("dependencies", .arr []), ("execution", .obj [])]

/-- A complete `head` sub-object for the record labelled `run002`. -/
def sampleHead2J : J :=
  J.obj [("label", .str "run002"), ("tags", .arr []), ("system", .obj []),
         ("inputs", .arr []), ("outputs", .arr []),
         ("dependencies", .arr []), ("execution", .obj [])]

/-- A complete execution-metadata `content` sub-object. -/
def sampleContentJ : J :=
  J.obj [("timestamp", .str "2015-01-01 12:00:00"), ("reason", .str "test"),
         ("duration", .num 5), ("executable", .obj []),
         ("repository", .obj []), ("main_file", .str "main.py"),
         ("version", .str "abc123"), ("parameters", .obj []),
         ("script_arguments", .str ""), ("datastore", .obj []),
         ("input_datastore", .obj []), ("outcome", .str "ok"),
         ("stdout_stderr", .str ""), ("diff", .str ""), ("user", .str "alice")]

/-- `run001` in the list-of-records envelope shape. -/
def sampleRec1 : J := mkListShape sampleHeadJ sampleContentJ

/-- `run002` in the list-of-records envelope shape. -/
def sampleRec2 : J := mkListShape sampleHead2J sampleContentJ

/-- A CoRR projects listing with one project, id `"12"`, name `"proj1"`. -/
def sampleProjects : List ProjEntry := [⟨"12", "proj1"⟩]

/-- Project `"12"` holds the two records `run001` and `run002`. -/
def sampleRecordsOf : String → List J :=
  fun pid => if pid == "12" then [sampleRec1, sampleRec2] else []

/-- A projects listing whose single project has id `"17"` and name `"foo"`. -/
def sampleProjListing : List ProjEntry := [⟨"17", "foo"⟩]

/-- The CoRR config of the spec's scenario. -/
def corrConfigSample : J :=
  J.obj [("default", J.obj [
    ("api", J.obj [("host", .str "h"), ("port", .num 8080),
                   ("path", .str "/api"), ("key", .str "K")]),
    ("app", .str "T")])]

/-- A file system holding the sample config under `corr-config.json`. -/
def sampleConfigFs : String → Option J :=
  fun p => if p == "corr-config.json" then some corrConfigSample else none

/-- The generic REST backend as a registry entry. -/
def httpStoreClass : StoreClass := ⟨"HttpRecordStore", httpAcceptsUri⟩

/-- A second registered backend whose predicate also matches http URIs. -/
def otherHttpStoreClass : StoreClass := ⟨"OtherHttpStore", httpAcceptsUri⟩

/-- The default (local) store class of the registry. -/
def shelveStoreClass : StoreClass := ⟨"ShelveRecordStore", fun _ => false⟩

/-!
## Helper lemmas
-/

/-- `find?` skips a block of elements on which the predicate is false. -/
lemma find?_append_of_forall_neg {α : Type} (p : α → Bool) (l₁ l₂ : List α)
    (h : ∀ c ∈ l₁, p c = false) :
    (l₁ ++ l₂).find? p = l₂.find? p := by
  induction l₁ with
  | nil => rfl
  | cons a as ih =>
    rw [List.cons_append, List.find?_cons_of_neg _ (by simp [h a (by simp)])]
    exact ih (fun c hc => h c (by simp [hc]))

/-- After `create_project p`, the server has project `p`. -/
lemma hasProjectSt_createProjectSt (st : StoreSt) (p : String) :
    hasProjectSt (createProjectSt st p) p = true := by
  unfold hasProjectSt createProjectSt getProj
  rw [List.find?_append]
  cases h : st.find? (fun pr => pr.name == p) with
  | none => simp
  | some pr => simp

/-- `find?`-success is preserved by mapping with a function that preserves
the predicate. -/
lemma find?_isSome_map_of_pred {α β : Type} (f : α → β) (p : α → Bool)
    (q : β → Bool) (h : ∀ a, q (f a) = p a) (l : List α) :
    ((l.map f).find? q).isSome = (l.find? p).isSome := by
  induction l with
  | nil => rfl
  | cons a as ih =>
    rw [List.map_cons]
    cases hpa : p a with
    | true =>
      rw [List.find?_cons_of_pos _ (by rw [h a, hpa]),
          List.find?_cons_of_pos _ hpa]
      rfl
    | false =>
      rw [List.find?_cons_of_neg _ (by simp [h a, hpa]),
          List.find?_cons_of_neg _ (by simp [hpa])]
      exact ih

/-- A record PUT does not change which projects exist. -/
lemma hasProjectSt_saveRecSt (st : StoreSt) (p label : String) (content : Nat)
    (q : String) : hasProjectSt (saveRecSt st p label content) q = hasProjectSt st q := by
  unfold hasProjectSt saveRecSt getProj
  exact find?_isSome_map_of_pred _ _ _
    (fun pr => by by_cases h : pr.name == p <;> simp [h]) st

/-!
## The claims
-/

/-- C1: `sync(A into B for P)` auto-creates P on the target and copies every
record label from source to target, idempotently, for both remote
backends.  This fails for `HttpCoRRStore.sync`: its delegation
`super(HttpRecordStore, self).sync(...)` names a class that
`HttpCoRRStore` does not inherit from, so every call raises `TypeError`
before any record is copied. -/
theorem httpCoRRStoreSync_always_typeError (self other : StoreSt) (p : String) :
    httpCoRRStoreSync self other p = .error .typeError := rfl

/-- C3 counterexample: for the very same underlying record (`sampleHeadJ`
with `sampleContentJ`), decoding the doubly-nested list-element envelope
succeeds while decoding the singly-nested single-record envelope fails —
the two decodes are not identical canonical records. -/
theorem corrDecode_shape_asymmetry_cx :
    (corrExtract1 (mkListShape sampleHeadJ sampleContentJ)).isSome = true ∧
    (corrExtract1 (mkSingleShape sampleHeadJ sampleContentJ)).isSome = false :=
  ⟨rfl, rfl⟩

/-- C3 amended: `HttpCoRRStore._get_record` reads only the doubly-nested
shape `{head, body:{body:{content}}}`: its single-match branch and its
multi-match per-element extraction agree on every envelope, and an
envelope in the singly-nested shape `{head, body:{content}}` always
fails to decode (the `body.body` access raises). -/
theorem corrDecode_doubly_nested_only (r head content : J) :
    corrExtract1 r = corrExtractN r ∧
    corrExtract1 (mkSingleShape head content) = none := by
  constructor
  · rfl
  · unfold corrExtract1
    rw [show jGet (mkSingleShape head content) "head" = some head from rfl,
        Option.some_bind]
    cases corrExtractHead head with
    | none => rfl
    | some hf => rw [Option.some_bind]; rfl

/-- C2: on the CoRR backend, `list(P)` is claimed to return one canonical
record per stored record and `labels(P)` all their labels, for any record
count.  The code violates this: with the two records `run001`, `run002`
stored, `_get_record(id, None)` decodes both but returns only
`contents[0]`, so `labels` yields the single label `run001`; and with
zero records it raises `RecordStoreAccessError` instead of returning an
empty list. -/
theorem corrList_drops_records :
    (sampleRecordsOf "12").length = 2 ∧
    corrLabels sampleProjects sampleRecordsOf "proj1" = .ok (some [J.str "run001"]) ∧
    corrGetRecordFrom [] none = .error (.accessError "No record with these label None\n") :=
  ⟨rfl, rfl, rfl⟩

/-- C4: the registry walks the registered store classes in order,
instantiates the first whose `accepts_uri` holds (passing the URI) — in
particular, of two matching backends the first registered wins — and
falls back to the configured default store when no predicate matches. -/
theorem getRecordStore_first_match (pre mid post : List StoreClass)
    (c₁ c₂ dflt : StoreClass) (uri : String)
    (hpre : ∀ c ∈ pre, c.accepts uri = false)
    (h₁ : c₁.accepts uri = true) (h₂ : c₂.accepts uri = true) :
    getRecordStore (pre ++ (c₁ :: (mid ++ c₂ :: post))) dflt uri = ⟨c₁.clsName, uri⟩ ∧
    ∀ classes : List StoreClass, (∀ c ∈ classes, c.accepts uri = false) →
      getRecordStore classes dflt uri = ⟨dflt.clsName, uri⟩ := by
  constructor
  · unfold getRecordStore
    rw [find?_append_of_forall_neg _ pre _ hpre]
    simp only [List.find?_cons, h₁]
  · intro classes hcl
    unfold getRecordStore
    rw [List.find?_eq_none.mpr (fun x hx => by simp [hcl x hx])]

/-- Witness for C4: both registered HTTP backends accept
`"http://store.example/"`; the first registered is instantiated. -/
theorem getRecordStore_first_match_w :
    getRecordStore [httpStoreClass, otherHttpStoreClass] shelveStoreClass
      "http://store.example/" = ⟨"HttpRecordStore", "http://store.example/"⟩ :=
  (getRecordStore_first_match [] [] [] httpStoreClass otherHttpStoreClass
    shelveStoreClass "http://store.example/"
    (fun c hc => absurd hc (List.not_mem_nil c)) rfl rfl).1

/-- C5: for the generic REST backend on `"http://store.example/"` (accepted
by its registry predicate, never by the CoRR predicate when no such file
exists): `save("proj1", record "run001")` first auto-creates `proj1` when
absent, issues `PUT http://store.example/proj1/run001/`, succeeds exactly
on response status 200 or 201 and raises an access error otherwise. -/
theorem httpSave_scenario (st : StoreSt) (content status : Nat) :
    httpAcceptsUri "http://store.example/" = true ∧
    corrAcceptsUri (fun _ => none) "http://store.example/" = false ∧
    httpStoreServerUrl "http://store.example/" = "http://store.example/" ∧
    (httpRecordStoreSave st (httpStoreServerUrl "http://store.example/")
        "proj1" "run001" content status).2.1 =
      ⟨"PUT", "http://store.example/proj1/run001/"⟩ ∧
    ((httpRecordStoreSave st (httpStoreServerUrl "http://store.example/")
        "proj1" "run001" content status).2.2 = .ok () ↔
      (status = 200 ∨ status = 201)) ∧
    hasProjectSt (httpRecordStoreSave st (httpStoreServerUrl "http://store.example/")
        "proj1" "run001" content status).1 "proj1" = true := by
  refine ⟨rfl, rfl, rfl, ?_, ?_, ?_⟩
  · by_cases hs : status = 200 ∨ status = 201 <;>
      simp [httpRecordStoreSave, hs, genSaveUrl] <;> rfl
  · by_cases hs : status = 200 ∨ status = 201 <;>
      simp [httpRecordStoreSave, hs]
  · by_cases hs : status = 200 ∨ status = 201 <;>
      by_cases hp : hasProjectSt st "proj1" <;>
      simp [httpRecordStoreSave, hs, hp, hasProjectSt_saveRecSt,
            hasProjectSt_createProjectSt]

/-- C6 counterexample: on the CoRR backend, fetching a label for which no
record exists raises `RecordStoreAccessError`, not the distinct
"not found" error the claim requires. -/
theorem corrGet_absent_raises_accessError_cx :
    isNotFound (corrGetRecordFrom [] (some "run001")) = false ∧
    isAccessError (corrGetRecordFrom [] (some "run001")) = true :=
  ⟨rfl, rfl⟩

/-- C6 amended: on the generic REST backend a single-record GET raises the
distinct "not found" error exactly on status 404, an access error
carrying status and body on every other non-200 status, and decodes the
body on 200; on the CoRR backend an absent label raises an access error
(not the "not found" kind). -/
theorem notFound_vs_accessError (status : Nat) (content : String)
    (records : List J) (label : String)
    (h200 : status ≠ 200) (h404 : status ≠ 404)
    (hnone : corrFilterRecords records (some label) = []) :
    isNotFound (genGetRecordOutcome 404 content) = true ∧
    isAccessError (genGetRecordOutcome 404 content) = false ∧
    isAccessError (genGetRecordOutcome status content) = true ∧
    genGetRecordOutcome 200 content = .ok content ∧
    isAccessError (corrGetRecordFrom records (some label)) = true ∧
    isNotFound (corrGetRecordFrom records (some label)) = false := by
  refine ⟨rfl, rfl, ?_, rfl, ?_, ?_⟩
  · simp [genGetRecordOutcome, h200, h404, isAccessError]
  · unfold corrGetRecordFrom
    rw [hnone]
    rfl
  · unfold corrGetRecordFrom
    rw [hnone]
    rfl

/-- Witness for C6: status 500 with no matching record. -/
theorem notFound_vs_accessError_w :
    isNotFound (genGetRecordOutcome 404 "oops") = true ∧
    isAccessError (genGetRecordOutcome 404 "oops") = false ∧
    isAccessError (genGetRecordOutcome 500 "oops") = true ∧
    genGetRecordOutcome 200 "oops" = .ok "oops" ∧
    isAccessError (corrGetRecordFrom [] (some "run009")) = true ∧
    isNotFound (corrGetRecordFrom [] (some "run009")) = false :=
  notFound_vs_accessError 500 "oops" [] "run009"
    (by decide) (by decide) rfl

/-- C7 counterexample: with the listing holding one project of id `"17"`
and name `"foo"`, `has_project "foo"` is true although `"foo"` does not
appear in `list_projects()` (which returns ids, not names). -/
theorem corr_hasProject_vs_listProjects_cx :
    corrHasProject sampleProjListing "foo" = true ∧
    (corrListProjects sampleProjListing).contains "foo" = false :=
  ⟨rfl, rfl⟩

/-- C7 amended: over one `GET /projects` listing, `has_project N` is true
iff `N` is among the project *names*, while membership of `N` in
`list_projects()` holds iff `N` is among the project *ids*; the two
coincide only when names and ids agree. -/
theorem corr_hasProject_names_listProjects_ids (ps : List ProjEntry) (n : String) :
    (corrHasProject ps n = true ↔ ∃ p ∈ ps, p.name = n) ∧
    ((corrListProjects ps).contains n = true ↔ ∃ p ∈ ps, p.id = n) := by
  constructor
  · unfold corrHasProject corrFindProject
    rw [List.find?_isSome]
    constructor
    · rintro ⟨p, hp, hb⟩
      exact ⟨p, hp, by simpa using hb⟩
    · rintro ⟨p, hp, hb⟩
      exact ⟨p, hp, by simpa using hb⟩
  · unfold corrListProjects
    constructor
    · intro h
      rcases List.elem_iff.mp h with hm
      rcases List.mem_map.mp hm with ⟨p, hp, hid⟩
      exact ⟨p, hp, hid⟩
    · rintro ⟨p, hp, hid⟩
      exact List.elem_iff.mpr (List.mem_map.mpr ⟨p, hp, hid⟩)

/-- C8: the unsupported operations — `clear`/`backup`/`remove` on the
generic REST backend and `delete`/`delete_by_tag`/`clear`/`backup`/
`remove` on the CoRR backend — emit a warning, never raise, leave the
server state unchanged (so a record targeted by `delete` stays intact),
and `delete_by_tag` reports a deleted-count of zero. -/
theorem unsupported_ops_warn_only (st : StoreSt) (p l t q m : String) :
    (httpClear st).1 = st ∧ (httpBackup st).1 = st ∧ (httpRemove st).1 = st ∧
    (corrDelete st p l).1 = st ∧ (corrDeleteByTag st p t).1 = st ∧
    (corrClear st).1 = st ∧ (corrBackup st).1 = st ∧ (corrRemove st).1 = st ∧
    (corrDeleteByTag st p t).2.value = 0 ∧
    getRecSt (corrDelete st p l).1 q m = getRecSt st q m ∧
    (corrDelete st p l).2.warning =
      "Deleting is not allowed by CoRR from the Command line tool for now." ∧
    (httpClear st).2.warning =
      "Cannot clear a remote record store directly. Contact the record store administrator" :=
  ⟨rfl, rfl, rfl, rfl, rfl, rfl, rfl, rfl, rfl, rfl, rfl, rfl⟩

/-- C9: constructing the CoRR store from a config-file path (a path the
constructor treats as a file, i.e. not containing `"http"`) whose parsed
JSON content is
`{"default":{"api":{"host":"h","port":8080,"path":"/api","key":"K"},"app":"T"}}`
stores the server URL `"h:8080/api/private/K/T/"` exactly. -/
theorem corr_config_server_url (path₀ : String) (fs : String → Option J)
    (hpath : strContains path₀ "http" = false)
    (hfs : fs path₀ = some corrConfigSample) :
    corrInitServerUrl fs path₀ = .ok "h:8080/api/private/K/T/" := by
  unfold corrInitServerUrl
  rw [hpath, if_neg Bool.false_ne_true, hfs]
  rfl

/-- Witness for C9: the path `corr-config.json` holding the sample config. -/
theorem corr_config_server_url_w :
    corrInitServerUrl sampleConfigFs "corr-config.json" =
      .ok "h:8080/api/private/K/T/" :=
  corr_config_server_url "corr-config.json" sampleConfigFs rfl rfl

/-- C10: `HttpCoRRStore.accepts_uri` is total (every exception falls into
the bare `except` and yields `False`): it returns true exactly when the
URI names a readable file whose content contains the signature
`"https://corr-root.org"`, and false for every other input — in
particular for any URI that names no readable file, such as an ordinary
http(s) URL. -/
theorem corr_acceptsUri_characterisation (fs : String → Option String) (uri : String) :
    corrAcceptsUri fs uri = true ↔
      ∃ c, fs uri = some c ∧ strContains c "https://corr-root.org" = true := by
  unfold corrAcceptsUri
  cases h : fs uri with
  | none => simp
  | some c =>
    cases hc : strContains c "https://corr-root.org" with
    | true => simp [hc]
    | false => simp [hc]
